import Mathlib

/-!
Verification of the Libra mempool/admission-control slice.

Shallow embedding of the repository's code:
* `LocalMockMempool` and its two methods, from
  `src/admission_control/admission-control-service/src/mocks/local_mock_mempool.rs`;
* the admission-control network adapter, from
  `src/network/src/validator_network/admission_control.rs`;
* the core mempool engine (`get_block` / `commit`), whose implementation is not
  part of the visible sources (only its test harness
  `src/mempool/src/core_mempool/unit_tests/common.rs` is), modelled from the
  specification.

Real time (`SystemTime`) is embedded by passing the current instant in
milliseconds as an explicit argument; a Rust `unwrap` panic is embedded as
`Option.none`.
-/

namespace Libra

/-- `ADDRESS_LENGTH` from the `types` crate: account addresses are 32 bytes. -/
def ADDRESS_LENGTH : Nat := 32

/-- An account address, as its sequence of bytes (each a value below 256;
byte-ness is immaterial to the claims, which only compare addresses). -/
abbrev AccountAddress := List Nat

/-- The sender-address view of a parsed `SignedTransaction`: the only part of
the transaction the mock mempool ever inspects. -/
structure SignedTransaction where
  sender : AccountAddress

/-- Modelled from the spec: the admission status code enum from
`mempool_shared_proto` (not under the visible sources). The spec gives
`status_code ∈ \x7bValid, InsufficientBalance, InvalidSeqNumber, InvalidUpdate,
MempoolIsFull\x7d`, listing `Valid` first; the prost-generated default for an
enum is its first (zero) variant. -/
inductive MempoolAddTransactionStatusCode
  | Valid
  | InsufficientBalance
  | InvalidSeqNumber
  | InvalidUpdate
  | MempoolIsFull
deriving DecidableEq, Repr

/-- Modelled from the spec: the default (zero) variant of the status code enum,
as produced by a default-constructed prost message. -/
def defaultStatusCode : MempoolAddTransactionStatusCode :=
  MempoolAddTransactionStatusCode.Valid

/-- Modelled from the spec: `MempoolAddTransactionStatus`; the only field the
mock ever writes is the code, which defaults to the enum's default variant. -/
structure MempoolAddTransactionStatus where
  code : MempoolAddTransactionStatusCode := defaultStatusCode
deriving DecidableEq, Repr

/-- The request proto, reduced to the one field the mock reads. `some txn`
embeds a present transaction field that parses into a `SignedTransaction`;
`none` embeds a missing or unparsable transaction (on which the Rust code
`unwrap`-panics). -/
structure AddTransactionWithValidationRequest where
  signed_txn : Option SignedTransaction

/-- The response proto, reduced to its status field (prost default: `none`). -/
structure AddTransactionWithValidationResponse where
  status : Option MempoolAddTransactionStatus := none
deriving DecidableEq, Repr

/-- `LocalMockMempool` state: the creation time, in milliseconds. -/
structure LocalMockMempool where
  created_time : Nat

/-- The five designated sender addresses of the mock, all bytes `100`. -/
def insufficient_balance_add : AccountAddress := List.replicate ADDRESS_LENGTH 100

/-- Designated sender address, all bytes `101`. -/
def invalid_seq_add : AccountAddress := List.replicate ADDRESS_LENGTH 101

/-- Designated sender address, all bytes `102`. -/
def sys_error_add : AccountAddress := List.replicate ADDRESS_LENGTH 102

/-- Designated sender address, all bytes `103`. -/
def accepted_add : AccountAddress := List.replicate ADDRESS_LENGTH 103

/-- Designated sender address, all bytes `104`. -/
def mempool_full : AccountAddress := List.replicate ADDRESS_LENGTH 104

/-- `LocalMockMempool::add_transaction_with_validation`. The Rust method always
returns `grpcio::Result::Ok`, so the grpc wrapper is dropped: `some resp`
embeds `Ok(resp)`, and `none` embeds the `unwrap` panic taken when the
request's transaction is absent or fails to parse. -/
def add_transaction_with_validation (_self : LocalMockMempool)
    (req : AddTransactionWithValidationRequest) :
    Option AddTransactionWithValidationResponse :=
  match req.signed_txn with
  | none => none
  | some signed_txn =>
    let sender := signed_txn.sender
    let status : MempoolAddTransactionStatus :=
      if sender = insufficient_balance_add then
        { code := MempoolAddTransactionStatusCode.InsufficientBalance }
      else if sender = invalid_seq_add then
        { code := MempoolAddTransactionStatusCode.InvalidSeqNumber }
      else if sender = sys_error_add then
        { code := MempoolAddTransactionStatusCode.InvalidUpdate }
      else if sender = accepted_add then
        { code := MempoolAddTransactionStatusCode.Valid }
      else if sender = mempool_full then
        { code := MempoolAddTransactionStatusCode.MempoolIsFull }
      else {}
    some { status := some status }

/-- Projection to the status code carried by a (possibly panicking) call. -/
def responseStatusCode :
    Option AddTransactionWithValidationResponse →
    Option MempoolAddTransactionStatusCode
  | none => none
  | some resp =>
    match resp.status with
    | none => none
    | some st => some st.code

/-- `HealthCheckResponse` proto, reduced to its flag (prost default: false). -/
structure HealthCheckResponse where
  is_healthy : Bool := false
deriving DecidableEq, Repr

/-- `LocalMockMempool::health_check` at current instant `now_ms` (in
milliseconds). `duration_since` fails when the clock reads earlier than the
creation time, and the Rust code `unwrap`s it: embedded as `none`. -/
def health_check (self : LocalMockMempool) (now_ms : Nat) :
    Option HealthCheckResponse :=
  if now_ms < self.created_time then none
  else
    some { is_healthy :=
      decide (500 < now_ms - self.created_time) ||
      decide (now_ms - self.created_time < 300) }

/-! ### Network adapter (`src/network/src/validator_network/admission_control.rs`) -/

/-- Validator peer identity; opaque to the adapter, embedded as a number. -/
abbrev PeerId := Nat

/-- `SubmitTransactionRequest` proto: payload opaque to the adapter. -/
structure SubmitTransactionRequest where
  payload : List Nat := []
deriving DecidableEq, Repr

/-- `SubmitTransactionResponse` proto: payload opaque to the adapter. -/
structure SubmitTransactionResponse where
  payload : List Nat := []
deriving DecidableEq, Repr

/-- The `message` oneof of `AdmissionControlMsg`. -/
inductive AdmissionControlMsg_oneof
  | SubmitTransactionRequest (r : SubmitTransactionRequest)
  | SubmitTransactionResponse (r : SubmitTransactionResponse)
deriving DecidableEq, Repr

/-- `AdmissionControlMsg` proto: an optional oneof message. -/
structure AdmissionControlMsg where
  message : Option AdmissionControlMsg_oneof := none
deriving DecidableEq, Repr

/-- Modelled from the spec: `RpcError` (`protocols/rpc/error.rs` is not under
the visible sources). The variant `InvalidRpcResponse` is evidenced directly
by the adapter source; the spec requires that "an invalid or mistyped response
is a distinct error from a timeout", so the timeout outcome is a separate
variant. -/
inductive RpcError
  | InvalidRpcResponse
  | TimedOut
deriving DecidableEq, Repr

/-- Modelled from the spec: `rpc::utils::unary_rpc` (not under the visible
sources), abstracted over the peer's reply. Per the spec the call "carries a
caller-specified timeout after which it resolves to a timeout error"; before
the timeout elapses it yields the decoded reply (or the transport's own
error). `elapsed` and `timeout` are in the same abstract time unit. -/
def unary_rpc (reply : Except RpcError AdmissionControlMsg)
    (elapsed timeout : Nat) : Except RpcError AdmissionControlMsg :=
  if timeout < elapsed then Except.error RpcError.TimedOut else reply

/-- `AdmissionControlNetworkSender::send_transaction_upstream`, result-level:
the `unary_rpc` await is embedded by its outcome, the `?` operator propagates
the transport error, and the trailing match on the reply's oneof is taken
verbatim from the source. -/
def send_transaction_upstream (reply : Except RpcError AdmissionControlMsg)
    (elapsed timeout : Nat) : Except RpcError SubmitTransactionResponse :=
  match unary_rpc reply elapsed timeout with
  | Except.error e => Except.error e
  | Except.ok res_msg_enum =>
    match res_msg_enum.message with
    | some (AdmissionControlMsg_oneof.SubmitTransactionResponse response) =>
      Except.ok response
    | _ => Except.error RpcError.InvalidRpcResponse

/-- Modelled from the spec: `NetworkError` (the network crate's error module is
not under the visible sources); opaque to the adapter, embedded as a number. -/
abbrev NetworkError := Nat

/-- `InboundRpcRequest`: the raw request bytes plus the response channel
(`res_tx`), the latter opaque to the adapter and carried as a token. -/
structure InboundRpcRequest where
  data : List Nat
  res_tx : Nat
deriving DecidableEq, Repr

/-- A direct-send `Message`: its raw bytes. -/
structure Message where
  mdata : List Nat
deriving DecidableEq, Repr

/-- Modelled from the spec: `NetworkNotification` (the network crate's
`interface` module is not under the visible sources); its four constructors
are exactly the cases matched by `AdmissionControlNetworkEvents::new`. -/
inductive NetworkNotification
  | NewPeer (peer_id : PeerId)
  | LostPeer (peer_id : PeerId)
  | RecvRpc (peer_id : PeerId) (rpc_req : InboundRpcRequest)
  | RecvMessage (peer_id : PeerId) (msg : Message)
deriving DecidableEq, Repr

/-- Modelled from the spec: `Event` from `validator_network` (not under the
visible sources); the four constructors are exactly those produced by the
adapter's closure. -/
inductive Event (T : Type)
  | NewPeer (peer_id : PeerId)
  | LostPeer (peer_id : PeerId)
  | RpcRequest (v : PeerId × T × Nat)
  | Message (v : PeerId × T)

/-- The per-notification mapping installed by
`AdmissionControlNetworkEvents::new` over the notification stream. `decode`
embeds `AdmissionControlMsg::decode` (prost, external), with the `?` operator
converting a decode failure into a `NetworkError` stream item. -/
def admission_control_events_map
    (decode : List Nat → Except NetworkError AdmissionControlMsg) :
    NetworkNotification → Except NetworkError (Event AdmissionControlMsg)
  | NetworkNotification.NewPeer peer_id =>
    Except.ok (Event.NewPeer peer_id)
  | NetworkNotification.LostPeer peer_id =>
    Except.ok (Event.LostPeer peer_id)
  | NetworkNotification.RecvRpc peer_id rpc_req =>
    match decode rpc_req.data with
    | Except.error e => Except.error e
    | Except.ok req_msg =>
      Except.ok (Event.RpcRequest (peer_id, req_msg, rpc_req.res_tx))
  | NetworkNotification.RecvMessage peer_id msg =>
    match decode msg.mdata with
    | Except.error e => Except.error e
    | Except.ok m => Except.ok (Event.Message (peer_id, m))

/-! ### Core mempool engine, modelled from the spec

The engine (`CoreMempool`: `get_block`, `commit`) is repository code that is
not under the visible sources — only its unit-test harness
(`src/mempool/src/core_mempool/unit_tests/common.rs`) is. The definitions
below are modelled from the specification, sections 3, 4.2 and 4.3. -/

/-- `TxnPointer`: the (account, sequence number) key every index stores.
Accounts are embedded as numbers (addresses are opaque identities here). -/
abbrev TxnPointer := Nat × Nat

/-- Modelled from the spec: the pool state — the Transaction Store (the set of
buffered (account, sequence) keys; the record's other attributes do not bear
on the claims), the Account Sequencer (`expected` = next expected sequence
number per account; a sequence is committed exactly when below it), the
Priority Index (the traversal order for block candidates; the claims proved
here hold for every order, so the order is an arbitrary list), the Timeline
Log (position, key) and the Expiration Index (deadline, key). -/
structure MempoolState where
  store : List TxnPointer
  expected : Nat → Nat
  priority_index : List TxnPointer
  timeline : List (Nat × TxnPointer)
  expiration : List (Nat × TxnPointer)

/-- Modelled from the spec: sequence `s` of account `a` is still outstanding
when it is "neither committed nor excluded" — not below the account's next
expected sequence number and not in the exclusion set. -/
def outstanding (st : MempoolState) (excl : List TxnPointer) (a s : Nat) : Bool :=
  decide (st.expected a ≤ s ∧ (a, s) ∉ excl)

/-- Modelled from the spec, `get_block` step 2: an entry (a, n) may be included
"if and only if all lower sequence numbers for the same account that are still
outstanding (neither committed nor excluded) have already been included
earlier in this same block" (`acc` is the block built so far). -/
def canInclude (st : MempoolState) (excl : List TxnPointer)
    (acc : List TxnPointer) (a n : Nat) : Bool :=
  decide (∀ s, s < n → outstanding st excl a s = true → (a, s) ∈ acc)

/-- Modelled from the spec: the `get_block` walk — traverse the Priority Index
in order, stop once the block reaches the maximum size, skip excluded entries,
and include an entry exactly when `canInclude` allows it. -/
def get_block_aux (st : MempoolState) (excl : List TxnPointer) :
    List TxnPointer → Nat → List TxnPointer → List TxnPointer
  | [], _, acc => acc
  | p :: rest, maxSize, acc =>
    if maxSize ≤ acc.length then acc
    else if p ∈ excl then get_block_aux st excl rest maxSize acc
    else if canInclude st excl acc p.1 p.2 then
      get_block_aux st excl rest maxSize (acc ++ [p])
    else get_block_aux st excl rest maxSize acc

/-- Modelled from the spec: `Mempool Engine — get_block`. Returns the ordered
block candidate together with the resulting pool state; the spec states "this
operation performs no mutation", so the state passes through unchanged. -/
def get_block (st : MempoolState) (maxSize : Nat) (excl : List TxnPointer) :
    List TxnPointer × MempoolState :=
  (get_block_aux st excl st.priority_index maxSize [], st)

/-- Modelled from the spec: a key is removed by a commit notification
(an account-to-finalized-sequence map) when its sequence number is at most the
account's finalized sequence number. -/
def committedBy (fin : Nat → Option Nat) (p : TxnPointer) : Bool :=
  match fin p.1 with
  | some n => decide (p.2 ≤ n)
  | none => false

/-- Modelled from the spec: `commit` advances each notified account's
`expected_sequence` past the finalized number; it never regresses it (the
spec requires committing a lower number to be a no-op). -/
def commitExpected (fin : Nat → Option Nat) (e : Nat → Nat) : Nat → Nat :=
  fun a =>
    match fin a with
    | some n => max (e a) (n + 1)
    | none => e a

/-- Modelled from the spec: readiness — "the held sequence numbers form an
unbroken run starting at `expected_sequence`": every sequence from the
expected one up to `s` is held in the store. -/
def isReady (store : List TxnPointer) (exp : Nat) (a s : Nat) : Bool :=
  decide (exp ≤ s) && decide (∀ t, t < s → exp ≤ t → (a, t) ∈ store)

/-- Modelled from the spec: after a commit the Priority Index is recomputed to
hold exactly the ready transactions ("recompute readiness ... promoting
previously parked transactions into the Priority Index"); the claims proved
here do not depend on the price ordering, so store order is kept. -/
def recomputePriority (store : List TxnPointer) (expected : Nat → Nat) :
    List TxnPointer :=
  store.filter (fun p => isReady store (expected p.1) p.1 p.2)

/-- Modelled from the spec: `Mempool Engine — commit`. Removes every record
with sequence number at most the account's finalized number from the store and
every index, advances `expected_sequence`, and recomputes readiness. -/
def commit (st : MempoolState) (fin : Nat → Option Nat) : MempoolState where
  store := st.store.filter (fun p => !(committedBy fin p))
  expected := commitExpected fin st.expected
  priority_index :=
    recomputePriority (st.store.filter (fun p => !(committedBy fin p)))
      (commitExpected fin st.expected)
  timeline := st.timeline.filter (fun e => !(committedBy fin e.2))
  expiration := st.expiration.filter (fun e => !(committedBy fin e.2))

/-- The sequence-contiguity property of a block candidate: whenever (a, n)
occupies position i of the list, every smaller still-outstanding sequence
number of account a already occurs among the first i entries. -/
def contiguous (st : MempoolState) (excl : List TxnPointer)
    (l : List TxnPointer) : Prop :=
  ∀ i (h : i < l.length) a n, l.get ⟨i, h⟩ = (a, n) →
    ∀ s, s < n → outstanding st excl a s = true → (a, s) ∈ l.take i

/-! ## Theorems -/

theorem contiguous_nil (st : MempoolState) (excl : List TxnPointer) :
    contiguous st excl [] := by
  intro i h
  simp at h

theorem contiguous_push (st : MempoolState) (excl : List TxnPointer)
    (acc : List TxnPointer) (a n : Nat)
    (hacc : contiguous st excl acc)
    (hcan : canInclude st excl acc a n = true) :
    contiguous st excl (acc ++ [(a, n)]) := by
  have hcan2 : ∀ s, s < n → outstanding st excl a s = true → (a, s) ∈ acc :=
    of_decide_eq_true hcan
  intro i h b m hget s hs hout
  have hlen : i < acc.length + 1 := by simpa using h
  rcases Nat.lt_or_ge i acc.length with hi | hi
  · have hget2 : acc.get ⟨i, hi⟩ = (b, m) := by
      rw [← hget]
      simp only [List.get_eq_getElem]
      exact (List.getElem_append_left hi).symm
    have hmem := hacc i hi b m hget2 s hs hout
    rw [List.take_append_of_le_length (Nat.le_of_lt hi)]
    exact hmem
  · have hi2 : i = acc.length := by omega
    subst hi2
    have hba : (a, n) = (b, m) := by
      rw [← hget]
      simp only [List.get_eq_getElem]
      exact (List.getElem_concat_length acc (a, n) acc.length rfl h).symm
    obtain ⟨hb, hm⟩ := Prod.mk.injEq .. ▸ hba
    subst hb
    subst hm
    rw [List.take_left]
    exact hcan2 s hs hout

theorem get_block_aux_contiguous (st : MempoolState) (excl : List TxnPointer)
    (rest : List TxnPointer) (maxSize : Nat) (acc : List TxnPointer)
    (hacc : contiguous st excl acc) :
    contiguous st excl (get_block_aux st excl rest maxSize acc) := by
  induction rest generalizing acc with
  | nil => simpa [get_block_aux] using hacc
  | cons p rest ih =>
    rw [get_block_aux]
    split
    · exact hacc
    · split
      · exact ih acc hacc
      · split
        · exact ih (acc ++ [p]) (contiguous_push st excl acc p.1 p.2 hacc (by assumption))
        · exact ih acc hacc

/-- Claim C2: for every pool state, maximum block size and exclusion set, the
list returned by get_block never contains a transaction with sequence number n
for an account at a position before which some smaller outstanding sequence
number (neither committed nor excluded) of the same account has not already
been included in the same returned list. -/
theorem get_block_sequence_contiguity (st : MempoolState) (maxSize : Nat)
    (excl : List TxnPointer) (i : Nat)
    (h : i < (get_block st maxSize excl).1.length) (a n : Nat)
    (hget : (get_block st maxSize excl).1.get ⟨i, h⟩ = (a, n))
    (s : Nat) (hs : s < n) (hout : outstanding st excl a s = true) :
    (a, s) ∈ (get_block st maxSize excl).1.take i :=
  get_block_aux_contiguous st excl st.priority_index maxSize []
    (contiguous_nil st excl) i h a n hget s hs hout

/-- Witness for C2: in a pool holding sequences 0 and 1 of account 7 with
expected sequence 0, the block [(7,0), (7,1)] carries (7,1) at position 1 and
indeed (7,0) was included before it. -/
theorem get_block_sequence_contiguity_witness :
    (7, 0) ∈ (get_block ⟨[(7, 0), (7, 1)], fun _ => 0, [(7, 0), (7, 1)], [], []⟩
        10 []).1.take 1 :=
  get_block_sequence_contiguity
    ⟨[(7, 0), (7, 1)], fun _ => 0, [(7, 0), (7, 1)], [], []⟩ 10 [] 1
    (by decide) 7 1 (by decide) 0 (by decide) (by decide)

/-- Claim C6: get_block leaves the entire pool state unchanged — the
transaction store and all four indices are equal before and after the call. -/
theorem get_block_no_mutation (st : MempoolState) (maxSize : Nat)
    (excl : List TxnPointer) :
    (get_block st maxSize excl).2.store = st.store ∧
    (get_block st maxSize excl).2.expected = st.expected ∧
    (get_block st maxSize excl).2.priority_index = st.priority_index ∧
    (get_block st maxSize excl).2.timeline = st.timeline ∧
    (get_block st maxSize excl).2.expiration = st.expiration :=
  ⟨rfl, rfl, rfl, rfl, rfl⟩

theorem committedBy_antitone (f g : Nat → Option Nat)
    (hle : ∀ a n, g a = some n → ∃ m, f a = some m ∧ n ≤ m)
    (p : TxnPointer) (hf : committedBy f p = false) :
    committedBy g p = false := by
  unfold committedBy at hf ⊢
  cases hg : g p.1 with
  | none => rfl
  | some n =>
    obtain ⟨m, hfm, hnm⟩ := hle p.1 n hg
    rw [hfm] at hf
    simp only [decide_eq_false_iff_not] at hf ⊢
    omega

theorem filter_not_committedBy_idem (f g : Nat → Option Nat)
    (hle : ∀ a n, g a = some n → ∃ m, f a = some m ∧ n ≤ m)
    (l : List TxnPointer) :
    (l.filter (fun p => !(committedBy f p))).filter
        (fun p => !(committedBy g p)) =
      l.filter (fun p => !(committedBy f p)) := by
  apply List.filter_eq_self.mpr
  intro p hp
  have hf : committedBy f p = false := by
    have := (List.mem_filter.mp hp).2
    simpa using this
  have := committedBy_antitone f g hle p hf
  simp [this]

theorem filter_snd_not_committedBy_idem (f g : Nat → Option Nat)
    (hle : ∀ a n, g a = some n → ∃ m, f a = some m ∧ n ≤ m)
    (l : List (Nat × TxnPointer)) :
    (l.filter (fun e => !(committedBy f e.2))).filter
        (fun e => !(committedBy g e.2)) =
      l.filter (fun e => !(committedBy f e.2)) := by
  apply List.filter_eq_self.mpr
  intro e he
  have hf : committedBy f e.2 = false := by
    have := (List.mem_filter.mp he).2
    simpa using this
  have := committedBy_antitone f g hle e.2 hf
  simp [this]

theorem commitExpected_idem (e : Nat → Nat) (f g : Nat → Option Nat)
    (hle : ∀ a n, g a = some n → ∃ m, f a = some m ∧ n ≤ m) :
    commitExpected g (commitExpected f e) = commitExpected f e := by
  funext a
  cases hg : g a with
  | none => simp [commitExpected, hg]
  | some n =>
    obtain ⟨m, hfm, hnm⟩ := hle a n hg
    simp only [commitExpected, hg, hfm]
    exact Nat.max_eq_left
      (Nat.le_trans (Nat.succ_le_succ hnm) (Nat.le_max_right _ _))

/-- Claim C5: for every pool state and account-to-finalized-sequence maps,
committing a second time with the same or a lower finalized sequence number
for each account produces exactly the pool state of the first commit. -/
theorem commit_idempotent (st : MempoolState) (f g : Nat → Option Nat)
    (hle : ∀ a n, g a = some n → ∃ m, f a = some m ∧ n ≤ m) :
    commit (commit st f) g = commit st f := by
  have hstore := filter_not_committedBy_idem f g hle st.store
  have hexp := commitExpected_idem st.expected f g hle
  have htime := filter_snd_not_committedBy_idem f g hle st.timeline
  have hexpi := filter_snd_not_committedBy_idem f g hle st.expiration
  simp only [commit]
  rw [MempoolState.mk.injEq]
  refine ⟨hstore, hexp, ?_, htime, hexpi⟩
  rw [hstore, hexp]

/-- Witness for C5 at a concrete pool and the commit map finalizing sequence 0
of account 0, applied twice. -/
theorem commit_idempotent_witness :
    commit (commit ⟨[(0, 0), (0, 1)], fun _ => 0, [(0, 0)], [(0, (0, 0))],
        [(5, (0, 1))]⟩ (fun a => if a = 0 then some 0 else none))
      (fun a => if a = 0 then some 0 else none) =
    commit ⟨[(0, 0), (0, 1)], fun _ => 0, [(0, 0)], [(0, (0, 0))],
        [(5, (0, 1))]⟩ (fun a => if a = 0 then some 0 else none) :=
  commit_idempotent _ _ _ (fun _ n h => ⟨n, h, Nat.le_refl n⟩)

/-- Claim C1: the health check reports healthy exactly when the elapsed time
since the mempool's creation is strictly below 300 ms or strictly past 500 ms,
and unhealthy for every elapsed duration from 300 ms to 500 ms inclusive. -/
theorem health_check_healthy_iff (self : LocalMockMempool) (now_ms : Nat)
    (h : self.created_time ≤ now_ms) :
    ∃ resp, health_check self now_ms = some resp ∧
      (resp.is_healthy = true ↔
        (now_ms - self.created_time < 300 ∨ 500 < now_ms - self.created_time)) ∧
      (300 ≤ now_ms - self.created_time → now_ms - self.created_time ≤ 500 →
        resp.is_healthy = false) := by
  have hnl : ¬ now_ms < self.created_time := Nat.not_lt.mpr h
  refine ⟨{ is_healthy := decide (500 < now_ms - self.created_time) ||
            decide (now_ms - self.created_time < 300) }, ?_, ?_, ?_⟩
  · simp [health_check, hnl]
  · simp only [Bool.or_eq_true, decide_eq_true_eq]
    constructor
    · rintro (h1 | h1)
      · exact Or.inr h1
      · exact Or.inl h1
    · rintro (h1 | h1)
      · exact Or.inr h1
      · exact Or.inl h1
  · intro h1 h2
    have n1 : ¬ (500 < now_ms - self.created_time) := by omega
    have n2 : ¬ (now_ms - self.created_time < 300) := by omega
    simp [n1, n2]

/-- Witness for C1: created at 0 ms and probed at 400 ms — inside the gap. -/
theorem health_check_healthy_iff_witness :
    ∃ resp, health_check ⟨0⟩ 400 = some resp ∧
      (resp.is_healthy = true ↔ (400 - 0 < 300 ∨ 500 < 400 - 0)) ∧
      (300 ≤ 400 - 0 → 400 - 0 ≤ 500 → resp.is_healthy = false) :=
  health_check_healthy_iff ⟨0⟩ 400 (by decide)

/-- Claim C3: for every request whose embedded signed transaction parses, the
mock returns Ok with a response carrying a status whose code is one of the
five values, and each designated sender address maps to its corresponding
code. -/
theorem add_transaction_status_code_in_five (self : LocalMockMempool)
    (req : AddTransactionWithValidationRequest) (txn : SignedTransaction)
    (h : req.signed_txn = some txn) :
    ∃ st : MempoolAddTransactionStatus,
      add_transaction_with_validation self req = some { status := some st } ∧
      (st.code = MempoolAddTransactionStatusCode.Valid ∨
        st.code = MempoolAddTransactionStatusCode.InsufficientBalance ∨
        st.code = MempoolAddTransactionStatusCode.InvalidSeqNumber ∨
        st.code = MempoolAddTransactionStatusCode.InvalidUpdate ∨
        st.code = MempoolAddTransactionStatusCode.MempoolIsFull) ∧
      (txn.sender = insufficient_balance_add →
        st.code = MempoolAddTransactionStatusCode.InsufficientBalance) ∧
      (txn.sender = invalid_seq_add →
        st.code = MempoolAddTransactionStatusCode.InvalidSeqNumber) ∧
      (txn.sender = sys_error_add →
        st.code = MempoolAddTransactionStatusCode.InvalidUpdate) ∧
      (txn.sender = accepted_add →
        st.code = MempoolAddTransactionStatusCode.Valid) ∧
      (txn.sender = mempool_full →
        st.code = MempoolAddTransactionStatusCode.MempoolIsFull) := by
  have d01 : insufficient_balance_add ≠ invalid_seq_add := by decide
  have d02 : insufficient_balance_add ≠ sys_error_add := by decide
  have d03 : insufficient_balance_add ≠ accepted_add := by decide
  have d04 : insufficient_balance_add ≠ mempool_full := by decide
  have d12 : invalid_seq_add ≠ sys_error_add := by decide
  have d13 : invalid_seq_add ≠ accepted_add := by decide
  have d14 : invalid_seq_add ≠ mempool_full := by decide
  have d23 : sys_error_add ≠ accepted_add := by decide
  have d24 : sys_error_add ≠ mempool_full := by decide
  have d34 : accepted_add ≠ mempool_full := by decide
  by_cases e0 : txn.sender = insufficient_balance_add
  · refine ⟨{ code := MempoolAddTransactionStatusCode.InsufficientBalance },
      ?_, ?_, ?_, ?_, ?_, ?_, ?_⟩
    · simp [add_transaction_with_validation, h, e0]
    · tauto
    · intro _; rfl
    · intro hx; exact absurd (e0.symm.trans hx) d01
    · intro hx; exact absurd (e0.symm.trans hx) d02
    · intro hx; exact absurd (e0.symm.trans hx) d03
    · intro hx; exact absurd (e0.symm.trans hx) d04
  by_cases e1 : txn.sender = invalid_seq_add
  · refine ⟨{ code := MempoolAddTransactionStatusCode.InvalidSeqNumber },
      ?_, ?_, ?_, ?_, ?_, ?_, ?_⟩
    · simp [add_transaction_with_validation, h, e0, e1]; decide
    · tauto
    · intro hx; exact absurd (e1.symm.trans hx) d01.symm
    · intro _; rfl
    · intro hx; exact absurd (e1.symm.trans hx) d12
    · intro hx; exact absurd (e1.symm.trans hx) d13
    · intro hx; exact absurd (e1.symm.trans hx) d14
  by_cases e2 : txn.sender = sys_error_add
  · refine ⟨{ code := MempoolAddTransactionStatusCode.InvalidUpdate },
      ?_, ?_, ?_, ?_, ?_, ?_, ?_⟩
    · simp [add_transaction_with_validation, h, e0, e1, e2]; decide
    · tauto
    · intro hx; exact absurd (e2.symm.trans hx) d02.symm
    · intro hx; exact absurd (e2.symm.trans hx) d12.symm
    · intro _; rfl
    · intro hx; exact absurd (e2.symm.trans hx) d23
    · intro hx; exact absurd (e2.symm.trans hx) d24
  by_cases e3 : txn.sender = accepted_add
  · refine ⟨{ code := MempoolAddTransactionStatusCode.Valid },
      ?_, ?_, ?_, ?_, ?_, ?_, ?_⟩
    · simp [add_transaction_with_validation, h, e0, e1, e2, e3]; decide
    · tauto
    · intro hx; exact absurd (e3.symm.trans hx) d03.symm
    · intro hx; exact absurd (e3.symm.trans hx) d13.symm
    · intro hx; exact absurd (e3.symm.trans hx) d23.symm
    · intro _; rfl
    · intro hx; exact absurd (e3.symm.trans hx) d34
  by_cases e4 : txn.sender = mempool_full
  · refine ⟨{ code := MempoolAddTransactionStatusCode.MempoolIsFull },
      ?_, ?_, ?_, ?_, ?_, ?_, ?_⟩
    · simp [add_transaction_with_validation, h, e0, e1, e2, e3, e4]; decide
    · tauto
    · intro hx; exact absurd (e4.symm.trans hx) d04.symm
    · intro hx; exact absurd (e4.symm.trans hx) d14.symm
    · intro hx; exact absurd (e4.symm.trans hx) d24.symm
    · intro hx; exact absurd (e4.symm.trans hx) d34.symm
    · intro _; rfl
  · refine ⟨{}, ?_, ?_, ?_, ?_, ?_, ?_, ?_⟩
    · simp [add_transaction_with_validation, h, e0, e1, e2, e3, e4]
    · exact Or.inl rfl
    · intro hx; exact absurd hx e0
    · intro hx; exact absurd hx e1
    · intro hx; exact absurd hx e2
    · intro hx; exact absurd hx e3
    · intro hx; exact absurd hx e4

/-- Witness for C3 at the designated accepted address (all bytes 103). -/
theorem add_transaction_status_code_in_five_witness :
    ∃ st : MempoolAddTransactionStatus,
      add_transaction_with_validation ⟨0⟩ ⟨some ⟨accepted_add⟩⟩ =
        some { status := some st } ∧
      (st.code = MempoolAddTransactionStatusCode.Valid ∨
        st.code = MempoolAddTransactionStatusCode.InsufficientBalance ∨
        st.code = MempoolAddTransactionStatusCode.InvalidSeqNumber ∨
        st.code = MempoolAddTransactionStatusCode.InvalidUpdate ∨
        st.code = MempoolAddTransactionStatusCode.MempoolIsFull) ∧
      ((accepted_add : AccountAddress) = insufficient_balance_add →
        st.code = MempoolAddTransactionStatusCode.InsufficientBalance) ∧
      ((accepted_add : AccountAddress) = invalid_seq_add →
        st.code = MempoolAddTransactionStatusCode.InvalidSeqNumber) ∧
      ((accepted_add : AccountAddress) = sys_error_add →
        st.code = MempoolAddTransactionStatusCode.InvalidUpdate) ∧
      ((accepted_add : AccountAddress) = accepted_add →
        st.code = MempoolAddTransactionStatusCode.Valid) ∧
      ((accepted_add : AccountAddress) = mempool_full →
        st.code = MempoolAddTransactionStatusCode.MempoolIsFull) :=
  add_transaction_status_code_in_five ⟨0⟩ ⟨some ⟨accepted_add⟩⟩ ⟨accepted_add⟩ rfl

/-- Claim C8: for every parsed sender address that equals none of the five
designated addresses, the mock still returns Ok with the status field set to
Some of a default-constructed status, whose code is the enum's default. -/
theorem add_transaction_default_status (self : LocalMockMempool)
    (req : AddTransactionWithValidationRequest) (txn : SignedTransaction)
    (h : req.signed_txn = some txn)
    (h0 : txn.sender ≠ insufficient_balance_add)
    (h1 : txn.sender ≠ invalid_seq_add)
    (h2 : txn.sender ≠ sys_error_add)
    (h3 : txn.sender ≠ accepted_add)
    (h4 : txn.sender ≠ mempool_full) :
    add_transaction_with_validation self req =
      some { status := some ({} : MempoolAddTransactionStatus) } ∧
    ({} : MempoolAddTransactionStatus).code = defaultStatusCode := by
  constructor
  · simp [add_transaction_with_validation, h, h0, h1, h2, h3, h4]
  · rfl

/-- Witness for C8 at the all-zero sender address. -/
theorem add_transaction_default_status_witness :
    add_transaction_with_validation ⟨0⟩
        ⟨some ⟨List.replicate ADDRESS_LENGTH 0⟩⟩ =
      some { status := some ({} : MempoolAddTransactionStatus) } ∧
    ({} : MempoolAddTransactionStatus).code = defaultStatusCode :=
  add_transaction_default_status ⟨0⟩ ⟨some ⟨List.replicate ADDRESS_LENGTH 0⟩⟩
    ⟨List.replicate ADDRESS_LENGTH 0⟩ rfl
    (by decide) (by decide) (by decide) (by decide) (by decide)

/-- Claim C10: the mock's admission result depends on nothing but the sender
address — any two calls, on any two mempool values, whose parsed transactions
carry equal senders yield equal status codes. -/
theorem add_transaction_deterministic_in_sender
    (m1 m2 : LocalMockMempool)
    (req1 req2 : AddTransactionWithValidationRequest)
    (txn1 txn2 : SignedTransaction)
    (h1 : req1.signed_txn = some txn1) (h2 : req2.signed_txn = some txn2)
    (hs : txn1.sender = txn2.sender) :
    responseStatusCode (add_transaction_with_validation m1 req1) =
      responseStatusCode (add_transaction_with_validation m2 req2) := by
  simp only [add_transaction_with_validation, h1, h2, hs]

/-- Witness for C10: two distinct mempool values and requests with the same
designated sender. -/
theorem add_transaction_deterministic_in_sender_witness :
    responseStatusCode (add_transaction_with_validation ⟨0⟩
        ⟨some ⟨accepted_add⟩⟩) =
      responseStatusCode (add_transaction_with_validation ⟨77⟩
        ⟨some ⟨accepted_add⟩⟩) :=
  add_transaction_deterministic_in_sender ⟨0⟩ ⟨77⟩ ⟨some ⟨accepted_add⟩⟩
    ⟨some ⟨accepted_add⟩⟩ ⟨accepted_add⟩ ⟨accepted_add⟩ rfl rfl rfl

/-- Claim C4: a peer reply decoding to an AdmissionControlMsg whose message
field is not a SubmitTransactionResponse makes send_transaction_upstream
return RpcError.InvalidRpcResponse; an elapsed timeout instead produces the
timeout error; and the two error values are distinct. -/
theorem send_transaction_upstream_invalid_vs_timeout
    (m : AdmissionControlMsg) (elapsed tmo : Nat) (hin : elapsed ≤ tmo)
    (hm : ∀ r, m.message ≠
      some (AdmissionControlMsg_oneof.SubmitTransactionResponse r))
    (reply : Except RpcError AdmissionControlMsg) (el tl : Nat)
    (hto : tl < el) :
    send_transaction_upstream (Except.ok m) elapsed tmo =
      Except.error RpcError.InvalidRpcResponse ∧
    send_transaction_upstream reply el tl = Except.error RpcError.TimedOut ∧
    RpcError.InvalidRpcResponse ≠ RpcError.TimedOut := by
  have hnt : ¬ (tmo < elapsed) := Nat.not_lt.mpr hin
  refine ⟨?_, ?_, by decide⟩
  · cases hmm : m.message with
    | none => simp [send_transaction_upstream, unary_rpc, hnt, hmm]
    | some o =>
      cases o with
      | SubmitTransactionRequest r =>
        simp [send_transaction_upstream, unary_rpc, hnt, hmm]
      | SubmitTransactionResponse r => exact absurd hmm (hm r)
  · simp [send_transaction_upstream, unary_rpc, hto]

/-- Witness for C4: a reply carrying a request instead of a response, and a
call whose timeout has elapsed. -/
theorem send_transaction_upstream_invalid_vs_timeout_witness :
    send_transaction_upstream
        (Except.ok
          ⟨some (AdmissionControlMsg_oneof.SubmitTransactionRequest ⟨[]⟩)⟩)
        1 5 =
      Except.error RpcError.InvalidRpcResponse ∧
    send_transaction_upstream
        (Except.ok (⟨none⟩ : AdmissionControlMsg)) 7 3 =
      Except.error RpcError.TimedOut ∧
    RpcError.InvalidRpcResponse ≠ RpcError.TimedOut :=
  send_transaction_upstream_invalid_vs_timeout
    ⟨some (AdmissionControlMsg_oneof.SubmitTransactionRequest ⟨[]⟩)⟩
    1 5 (by decide) (by simp) (Except.ok ⟨none⟩) 7 3 (by decide)

/-- Claim C9: the notification mapping sends NewPeer and LostPeer to the
corresponding Ok events with the same peer id, and a RecvRpc or RecvMessage
payload that fails to decode yields that decode failure as an Err stream item
(one item per notification, never dropped). -/
theorem admission_control_events_mapping
    (decode : List Nat → Except NetworkError AdmissionControlMsg)
    (peer_id : PeerId) (rpc_req : InboundRpcRequest) (msg : Message)
    (e1 e2 : NetworkError)
    (hrpc : decode rpc_req.data = Except.error e1)
    (hmsg : decode msg.mdata = Except.error e2) :
    admission_control_events_map decode (NetworkNotification.NewPeer peer_id) =
      Except.ok (Event.NewPeer peer_id) ∧
    admission_control_events_map decode (NetworkNotification.LostPeer peer_id) =
      Except.ok (Event.LostPeer peer_id) ∧
    admission_control_events_map decode
        (NetworkNotification.RecvRpc peer_id rpc_req) = Except.error e1 ∧
    admission_control_events_map decode
        (NetworkNotification.RecvMessage peer_id msg) = Except.error e2 := by
  refine ⟨rfl, rfl, ?_, ?_⟩
  · simp [admission_control_events_map, hrpc]
  · simp [admission_control_events_map, hmsg]

/-- Witness for C9 with a decoder rejecting every payload. -/
theorem admission_control_events_mapping_witness :
    admission_control_events_map (fun _ => Except.error 0)
        (NetworkNotification.NewPeer 3) = Except.ok (Event.NewPeer 3) ∧
    admission_control_events_map (fun _ => Except.error 0)
        (NetworkNotification.LostPeer 3) = Except.ok (Event.LostPeer 3) ∧
    admission_control_events_map (fun _ => Except.error 0)
        (NetworkNotification.RecvRpc 3 ⟨[9], 4⟩) = Except.error 0 ∧
    admission_control_events_map (fun _ => Except.error 0)
        (NetworkNotification.RecvMessage 3 ⟨[9]⟩) = Except.error 0 :=
  admission_control_events_mapping (fun _ => Except.error 0) 3 ⟨[9], 4⟩ ⟨[9]⟩
    0 0 rfl rfl

end Libra
